import Mathlib

/-!
Verification development for the JWT verification core of the
ocid-connect-react-native SDK.

The embedding models the JavaScript source shallowly:
* JavaScript values reachable from parsed JSON (plus `undefined`) are the
  inductive `JVal`; property access on a parsed value is `getField`
  (absent property gives `undefined`).
* Library calls whose implementation lives outside the verified sources
  (base64url decoding, `JSON.parse`, the SHA-256 digest, the elliptic
  library's key construction and ECDSA check) are fields of a `CryptoEnv`
  record; a `none` result models the call throwing an exception.
* A JS function that may throw becomes `Except String`; a function that
  wraps its body in try/catch returning a value becomes a total function.
* `Date.now()` / current Unix time is an explicit parameter.
-/

namespace OcidConnect

/-- JavaScript values as seen by the verifier: everything `JSON.parse` can
produce, plus `undefined` for absent properties. -/
inductive JVal where
  | undefined : JVal
  | null : JVal
  | bool (b : Bool) : JVal
  | num (n : Int) : JVal
  | str (s : String) : JVal
  | arr (xs : List JVal) : JVal
  | obj (fs : List (String × JVal)) : JVal

/-- Property lookup in an object's field list (first binding wins). -/
def getFieldFs : List (String × JVal) → String → JVal
  | [], _ => .undefined
  | (k, v) :: rest, key => if k = key then v else getFieldFs rest key

/-- JavaScript property access `v.key` on a parsed value: objects look up
the field, every other parsed value yields `undefined`. -/
def getField : JVal → String → JVal
  | .obj fs, key => getFieldFs fs key
  | _, _ => .undefined

/-- JavaScript truthiness: `undefined`, `null`, `false`, `0` and `""` are
falsy; everything else (including `[]` and `{}`) is truthy. -/
def truthy : JVal → Bool
  | .undefined => false
  | .null => false
  | .bool b => b
  | .num n => n != 0
  | .str s => s != ""
  | .arr _ => true
  | .obj _ => true

/-- JavaScript strict equality `===` restricted to the values compared by
this code. Primitives compare structurally; two array/object values built
independently are distinct references, hence unequal. -/
def jsEq : JVal → JVal → Bool
  | .undefined, .undefined => true
  | .null, .null => true
  | .bool a, .bool b => a == b
  | .num a, .num b => a == b
  | .str a, .str b => a == b
  | _, _ => false

/-- JavaScript string conversion of a primitive (as used by template
literals in the error messages); arrays and objects are rendered
shallowly, which is all the verifier's messages ever do. -/
def jsDisplayAtom : JVal → String
  | .undefined => "undefined"
  | .null => "null"
  | .bool b => if b then "true" else "false"
  | .num n => toString n
  | .str s => s
  | .arr _ => ""
  | .obj _ => "[object Object]"

/-- JavaScript string conversion: arrays join their elements with `,`. -/
def jsDisplay : JVal → String
  | .arr xs => String.intercalate "," (xs.map jsDisplayAtom)
  | v => jsDisplayAtom v

/-- Lower-case hex digit, as produced by `Buffer.toString('hex')`. -/
def hexDigit (n : Nat) : Char :=
  if n < 10 then Char.ofNat (48 + n) else Char.ofNat (87 + n)

/-- Two-digit lower-case hex rendering of one byte. -/
def hexByte (b : Nat) : String :=
  String.mk [hexDigit ((b % 256) / 16), hexDigit (b % 16)]

/-- `Buffer.toString('hex')` over a byte list. -/
def hexOfBytes (bs : List Nat) : String :=
  String.join (bs.map hexByte)

/-- An elliptic-curve public key as the verifier holds it: the hex strings
of the x and y coordinates handed to `ec.keyFromPublic`. -/
def ECKey := String × String

/-- External library operations used by the verifier. Each partial
operation returns `Option`; `none` models the JS call throwing.
`b64decode` is `base64UrlDecode` to bytes, `jsonParse` is `JSON.parse` on
the decoded bytes, `sha256hex` is `expo-crypto`'s hex SHA-256 digest,
`keyFromPublic` is the elliptic library's key construction from hex
coordinates (throwing on a malformed coordinate), and `ecVerify key hash
r s` is `key.verify(hash, {r, s})`. -/
structure CryptoEnv where
  b64decode : String → Option (List Nat)
  jsonParse : List Nat → Option JVal
  sha256hex : String → Option String
  keyFromPublic : String → String → Option Unit
  ecVerify : ECKey → String → String → String → Option Bool

/-- JavaScript `String.split('.')` on the character list: every `.` is a
separator, adjacent/leading/trailing separators produce empty segments. -/
def splitCharsOnDot : List Char → List (List Char)
  | [] => [[]]
  | c :: rest =>
    if c = '.' then [] :: splitCharsOnDot rest
    else match splitCharsOnDot rest with
      | seg :: segs => (c :: seg) :: segs
      | [] => [[c]]

/-- JavaScript `token.split('.')`. -/
def jsSplitDot (s : String) : List String :=
  (splitCharsOnDot s.data).map String.mk

/-- Result of `decodeJWT`: decoded header and payload, the raw signature
segment, and `message` — the signing input `parts[0] + "." + parts[1]`. -/
structure DecodedJWT where
  header : JVal
  payload : JVal
  signature : String
  message : String

/-- `decodeJWT` from the source: split on `.`, require exactly 3 parts,
base64url-decode-then-JSON-parse the first two, keep the third raw, and
rebuild the signing input from the original encoded substrings. -/
def decodeJWT (env : CryptoEnv) (token : String) : Except String DecodedJWT :=
  match jsSplitDot token with
  | [p0, p1, p2] =>
    match env.b64decode p0 >>= env.jsonParse, env.b64decode p1 >>= env.jsonParse with
    | some header, some payload =>
      .ok { header := header, payload := payload, signature := p2, message := p0 ++ "." ++ p1 }
    | _, _ => .error "Failed to decode JWT: malformed segment"
  | _ => .error "Invalid JWT format: must have 3 parts"

/-- `jwkToEllipticKey` from the source: require `kty == "EC"` and
`crv == "P-256"`, base64url-decode the coordinates, hex-encode them and
build the elliptic public key; any library throw propagates as an error. -/
def jwkToEllipticKey (env : CryptoEnv) (jwk : JVal) : Except String ECKey :=
  if !(jsEq (getField jwk "kty") (.str "EC")) then
    .error ("Unsupported key type: " ++ jsDisplay (getField jwk "kty") ++
      ". Only EC (Elliptic Curve) is supported.")
  else if !(jsEq (getField jwk "crv") (.str "P-256")) then
    .error ("Unsupported curve: " ++ jsDisplay (getField jwk "crv") ++
      ". Only P-256 is supported.")
  else
    match getField jwk "x", getField jwk "y" with
    | .str sx, .str sy =>
      match env.b64decode sx, env.b64decode sy with
      | some xb, some yb =>
        let x := hexOfBytes xb
        let y := hexOfBytes yb
        match env.keyFromPublic x y with
        | some _ => .ok (x, y)
        | none => .error "keyFromPublic threw"
      | _, _ => .error "base64UrlDecode threw on a key coordinate"
    | _, _ => .error "base64UrlDecode threw on a key coordinate"

/-- `verifySignature` from the source. The whole body is a try/catch
returning `false` on any exception, so the model is total: hash the
message, base64url-decode the signature, require exactly 64 bytes, split
into 32-byte `r` and `s` hex halves and ask the elliptic library. -/
def verifySignature (env : CryptoEnv) (message signature : String)
    (publicKey : ECKey) : Bool :=
  match env.sha256hex message with
  | none => false
  | some hash =>
    match env.b64decode signature with
    | none => false
    | some sigBytes =>
      if sigBytes.length ≠ 64 then false
      else
        let r := hexOfBytes (sigBytes.take 32)
        let s := hexOfBytes (sigBytes.drop 32)
        match env.ecVerify publicKey hash r s with
        | none => false
        | some b => b

/-- Options accepted by `validateClaims` / `verifyJWT`. Unset fields are
`undefined`, exactly as an absent property of a JS options object. -/
structure VerifyOptions where
  expectedIssuer : JVal := .undefined
  expectedAudience : JVal := .undefined

/-- Result record of `validateClaims`. -/
structure ValidationResult where
  valid : Bool
  errors : List String

/-- The `exp` rule: required; must be a number; expired once `exp < now`. -/
def expCheck (exp : JVal) (now : Int) : List String :=
  match exp with
  | .undefined => ["exp claim is required but missing"]
  | .num k => if k < now then ["Token has expired"] else []
  | _ => ["exp claim must be a number"]

/-- The `nbf` rule: optional; must be a number; not yet valid if `nbf > now`. -/
def nbfCheck (nbf : JVal) (now : Int) : List String :=
  match nbf with
  | .undefined => []
  | .num k => if k > now then ["Token not yet valid (nbf claim)"] else []
  | _ => ["nbf claim must be a number"]

/-- The `iat` rule: optional; must be a number; future-dated if `iat > now`. -/
def iatCheck (iat : JVal) (now : Int) : List String :=
  match iat with
  | .undefined => []
  | .num k => if k > now then ["Token issued in the future (iat claim)"] else []
  | _ => ["iat claim must be a number"]

/-- The `iss` rule: when an expected issuer is (truthily) given, the
payload's `iss` must be strictly equal to it. -/
def issCheck (iss : JVal) (expectedIssuer : JVal) : List String :=
  if truthy expectedIssuer then
    if jsEq iss expectedIssuer then []
    else ["Invalid issuer: expected " ++ jsDisplay expectedIssuer ++
      ", got " ++ jsDisplay iss]
  else []

/-- The `aud` rule: when an expected audience is (truthily) given, wrap a
scalar `aud` into a one-element array and require membership. -/
def audCheck (aud : JVal) (expectedAudience : JVal) : List String :=
  if truthy expectedAudience then
    let audiences : List JVal := match aud with
      | .arr xs => xs
      | v => [v]
    if audiences.any (fun a => jsEq a expectedAudience) then []
    else ["Invalid audience: expected " ++ jsDisplay expectedAudience]
  else []

/-- `validateClaims` as in `src/unnamed/part_002` (the revision with the
`iat` check active): every rule contributes its violations independently
and the result is valid exactly when no rule complained. -/
def validateClaims (payload : JVal) (options : VerifyOptions) (now : Int) :
    ValidationResult :=
  let errors :=
    expCheck (getField payload "exp") now ++
    nbfCheck (getField payload "nbf") now ++
    iatCheck (getField payload "iat") now ++
    issCheck (getField payload "iss") options.expectedIssuer ++
    audCheck (getField payload "aud") options.expectedAudience
  { valid := errors.isEmpty, errors := errors }

/-- `validateClaims` as in `src/src/sdk/auth.js`, where the whole `iat`
block is commented out; otherwise identical to the other revision. -/
def validateClaimsAuthJs (payload : JVal) (options : VerifyOptions) (now : Int) :
    ValidationResult :=
  let errors :=
    expCheck (getField payload "exp") now ++
    nbfCheck (getField payload "nbf") now ++
    issCheck (getField payload "iss") options.expectedIssuer ++
    audCheck (getField payload "aud") options.expectedAudience
  { valid := errors.isEmpty, errors := errors }

/-- `findKeyInJWKS` from `src/src/sdk/crypto/jwks.js`: null unless
`jwks.keys` is a (truthy) array, otherwise the first key whose `kid` is
strictly equal to the requested one, or null. -/
def findKeyInJWKS (jwks : JVal) (kid : JVal) : Option JVal :=
  match getField jwks "keys" with
  | .arr keys => keys.find? (fun key => jsEq (getField key "kid") kid)
  | _ => none

/-- JavaScript `v.length > 0` as evaluated at the key-less fallback:
positive for a non-empty array (or string); every other value's `length`
is `undefined`, and `undefined > 0` is false. -/
def jsLengthPos : JVal → Bool
  | .arr xs => !xs.isEmpty
  | .str s => !s.isEmpty
  | _ => false

/-- JavaScript `v[0]` at the key-less fallback: head of an array (or
first character of a string), `undefined` otherwise. -/
def jsIndex0 : JVal → JVal
  | .arr (x :: _) => x
  | .str s =>
    match s.data with
    | c :: _ => .str (String.mk [c])
    | [] => .undefined
  | _ => .undefined

/-- Step 4 of `verifyJWT`: if the header carries a (truthy) `kid`, the
matching key must exist; with no `kid`, fall back to the first key of a
non-empty key list, else fail. -/
def resolveKey (header : JVal) (jwks : JVal) : Except String JVal :=
  let kid := getField header "kid"
  if truthy kid then
    match findKeyInJWKS jwks kid with
    | some jwk => .ok jwk
    | none => .error ("Key with kid \x22" ++ jsDisplay kid ++ "\x22 not found in JWKS")
  else
    let keys := getField jwks "keys"
    if truthy keys && jsLengthPos keys then .ok (jsIndex0 keys)
    else .error "No kid in JWT header and no keys in JWKS"

/-- The tagged outcome `verifyJWT` returns: `{valid: true, header,
payload}` or `{valid: false, error}`. -/
inductive VerificationOutcome where
  | valid (header payload : JVal) : VerificationOutcome
  | invalid (error : String) : VerificationOutcome

/-- Steps 5–7 of `verifyJWT`, after the verification key was resolved:
build the elliptic key, verify the signature over the original signing
input, then validate the claims; each failure is caught by `verifyJWT`'s
surrounding try/catch and becomes an invalid outcome. -/
def verifyWithKey (env : CryptoEnv) (d : DecodedJWT) (jwk : JVal)
    (options : VerifyOptions) (now : Int) : VerificationOutcome :=
  match jwkToEllipticKey env jwk with
  | .error e => .invalid e
  | .ok publicKey =>
    if verifySignature env d.message d.signature publicKey then
      let claimsValidation := validateClaims d.payload
        { expectedIssuer := options.expectedIssuer,
          expectedAudience := options.expectedAudience } now
      if claimsValidation.valid then .valid d.header d.payload
      else .invalid ("JWT claims validation failed: " ++
        String.intercalate ", " claimsValidation.errors)
    else .invalid "JWT signature verification failed"

/-- `verifyJWT` from the source. `jwksResult` is the value the awaited
`fetchJWKS(jwksUrl)` call would produce (`.error` models it throwing);
the returned flag records whether execution reached that fetch, so a
`false` flag means the key-set fetch was never attempted. The body's
try/catch converts every thrown error into `{valid: false, error}`. -/
def verifyJWT (env : CryptoEnv) (idToken : String)
    (jwksResult : Except String JVal) (options : VerifyOptions) (now : Int) :
    VerificationOutcome × Bool :=
  match decodeJWT env idToken with
  | .error e => (.invalid e, false)
  | .ok d =>
    if jsEq (getField d.header "alg") (.str "ES256") then
      match jwksResult with
      | .error e => (.invalid e, true)
      | .ok jwks =>
        match resolveKey d.header jwks with
        | .error e => (.invalid e, true)
        | .ok jwk => (verifyWithKey env d jwk options now, true)
    else
      (.invalid ("Unsupported algorithm: " ++ jsDisplay (getField d.header "alg") ++
        ". Only ES256 is supported."), false)

/-! ### Key-set cache (`src/src/sdk/crypto/jwks.js`) -/

/-- `CACHE_TTL = 60 * 60 * 1000` — one hour in milliseconds. -/
def CACHE_TTL : Int := 60 * 60 * 1000

/-- One stored cache record: the key set and the `Date.now()` at storage. -/
structure CacheEntry where
  jwks : JVal
  timestamp : Int

/-- The `JWKSCache` map, keyed by URL. -/
def CacheState := List (String × CacheEntry)

/-- `Map.get` on the cache map. -/
def cacheLookup (st : CacheState) (url : String) : Option CacheEntry :=
  (st.find? (fun p => p.1 == url)).map (fun p => p.2)

/-- `Map.delete` on the cache map. -/
def cacheDelete (st : CacheState) (url : String) : CacheState :=
  st.filter (fun p => !(p.1 == url))

/-- `JWKSCache.set`: store the key set against the URL with the current
time, replacing any previous binding. -/
def cacheSet (st : CacheState) (url : String) (jwks : JVal) (now : Int) :
    CacheState :=
  (url, { jwks := jwks, timestamp := now }) :: cacheDelete st url

/-- `JWKSCache.get`: miss when absent; when present but older than the
TTL, delete the entry and miss; otherwise hit. -/
def cacheGet (st : CacheState) (url : String) (now : Int) :
    Option JVal × CacheState :=
  match cacheLookup st url with
  | none => (none, st)
  | some cached =>
    if now - cached.timestamp > CACHE_TTL then (none, cacheDelete st url)
    else (some cached.jwks, st)

/-- The fetched body is acceptable exactly when `jwks.keys` is a truthy
array (`if (!jwks.keys || !Array.isArray(jwks.keys)) throw`). -/
def isValidJWKSFormat (jwks : JVal) : Bool :=
  truthy (getField jwks "keys") &&
    (match getField jwks "keys" with
     | .arr _ => true
     | _ => false)

/-- `fetchJWKS` from the source: consult the cache first and return the
cached set on a hit; on a miss perform the network fetch (`network` is
the parsed response body, `none` modelling a network/HTTP/JSON failure),
validate the format, store the result against the URL and return it.
The returned flag records whether a network fetch was performed. -/
def fetchJWKS (st : CacheState) (url : String) (now : Int)
    (network : Option JVal) : Except String JVal × CacheState × Bool :=
  match cacheGet st url now with
  | (some jwks, st') => (.ok jwks, st', false)
  | (none, st') =>
    match network with
    | none => (.error "Failed to fetch JWKS: network error", st', true)
    | some jwks =>
      if isValidJWKSFormat jwks then (.ok jwks, cacheSet st' url jwks now, true)
      else (.error "Failed to fetch JWKS: Invalid JWKS format: missing keys array", st', true)

/-! ### WebCrypto compatibility stub (`src/src/sdk/crypto/webcrypto.js`) -/

/-- `webcrypto.subtle.verify` from the source: the body ignores all four
arguments, logs a warning and returns `true` unconditionally. -/
def webcryptoSubtleVerify (_algorithm _key _signature _data : JVal) : Bool :=
  true

/-! ### Concrete fixtures for counterexamples and witnesses -/

/-- A decoded token header `{"alg": "ES256"}` with no `kid`. -/
def sampleHeader : JVal := .obj [("alg", .str "ES256")]

/-- A decoded token header `{"alg": "HS256"}`. -/
def sampleHeaderHS : JVal := .obj [("alg", .str "HS256")]

/-- A decoded payload `{"exp": 100}`. -/
def samplePayload : JVal := .obj [("exp", .num 100)]

/-- A concrete crypto environment: segment `hh` decodes to the ES256
header, `pp` to the payload, `aa` to the HS256 header, `ss` to a 64-byte
signature, `xx`/`yy` to key coordinates; hashing always succeeds and the
elliptic library accepts the key and affirms the signature. -/
def sampleEnv : CryptoEnv where
  b64decode := fun s =>
    if s == "hh" then some [0]
    else if s == "pp" then some [1]
    else if s == "ss" then some (List.replicate 64 0)
    else if s == "xx" then some [1]
    else if s == "yy" then some [2]
    else if s == "aa" then some [3]
    else none
  jsonParse := fun bs =>
    if bs == [0] then some sampleHeader
    else if bs == [1] then some samplePayload
    else if bs == [3] then some sampleHeaderHS
    else none
  sha256hex := fun _ => some "digest"
  keyFromPublic := fun _ _ => some ()
  ecVerify := fun _ _ _ _ => some true

/-- A well-formed P-256 JWK with the given `kid`. -/
def sampleKey (kid : String) : JVal :=
  .obj [("kty", .str "EC"), ("crv", .str "P-256"), ("kid", .str kid),
        ("x", .str "xx"), ("y", .str "yy")]

/-- A key set holding two distinct keys. -/
def sampleJwks : JVal := .obj [("keys", .arr [sampleKey "k1", sampleKey "k2"])]

/-- A key set holding one key, distinct from `sampleJwks`. -/
def sampleJwksB : JVal := .obj [("keys", .arr [sampleKey "k3"])]

/-- A decoded payload `{"exp": 10, "iat": 100}` — issued in the future for
any current time below 100. -/
def c7Payload : JVal := .obj [("exp", .num 10), ("iat", .num 100)]

/-! ## Helper lemmas -/

/-- An issuer error message never coincides with the expiry message. -/
lemma issMsg_ne_expired (s t : String) :
    "Invalid issuer: expected " ++ s ++ ", got " ++ t ≠ "Token has expired" := by
  intro h
  have h2 := congrArg String.data h
  simp [String.data_append] at h2

/-- An issuer error message never coincides with the future-iat message. -/
lemma issMsg_ne_iatFuture (s t : String) :
    "Invalid issuer: expected " ++ s ++ ", got " ++ t ≠
      "Token issued in the future (iat claim)" := by
  intro h
  have h2 := congrArg String.data h
  simp [String.data_append] at h2

/-- An issuer error message never coincides with the iat-type message. -/
lemma issMsg_ne_iatNum (s t : String) :
    "Invalid issuer: expected " ++ s ++ ", got " ++ t ≠ "iat claim must be a number" := by
  intro h
  have h2 := congrArg String.data h
  simp [String.data_append] at h2

/-- An audience error message never coincides with the expiry message. -/
lemma audMsg_ne_expired (s : String) :
    "Invalid audience: expected " ++ s ≠ "Token has expired" := by
  intro h
  have h2 := congrArg String.data h
  simp [String.data_append] at h2

/-- An audience error message never coincides with the future-iat message. -/
lemma audMsg_ne_iatFuture (s : String) :
    "Invalid audience: expected " ++ s ≠ "Token issued in the future (iat claim)" := by
  intro h
  have h2 := congrArg String.data h
  simp [String.data_append] at h2

/-- An audience error message never coincides with the iat-type message. -/
lemma audMsg_ne_iatNum (s : String) :
    "Invalid audience: expected " ++ s ≠ "iat claim must be a number" := by
  intro h
  have h2 := congrArg String.data h
  simp [String.data_append] at h2

/-- The issuer rule contributes nothing or exactly its one message. -/
lemma issCheck_eq (a b : JVal) :
    issCheck a b = [] ∨
      issCheck a b = ["Invalid issuer: expected " ++ jsDisplay b ++ ", got " ++ jsDisplay a] := by
  unfold issCheck
  split
  · split
    · exact .inl rfl
    · exact .inr rfl
  · exact .inl rfl

/-- The audience rule contributes nothing or exactly its one message. -/
lemma audCheck_eq (a b : JVal) :
    audCheck a b = [] ∨
      audCheck a b = ["Invalid audience: expected " ++ jsDisplay b] := by
  unfold audCheck
  split
  · split <;> dsimp only <;> split <;> first | exact .inl rfl | exact .inr rfl
  · exact .inl rfl

/-- A string distinct from every issuer message is never contributed by
the issuer rule. -/
lemma notMem_issCheck_of_ne (m : String)
    (h : ∀ s t, "Invalid issuer: expected " ++ s ++ ", got " ++ t ≠ m) (a b : JVal) :
    m ∉ issCheck a b := by
  rcases issCheck_eq a b with he | he <;> simp [he]
  exact fun hc => h _ _ hc.symm

/-- A string distinct from every audience message is never contributed by
the audience rule. -/
lemma notMem_audCheck_of_ne (m : String)
    (h : ∀ s, "Invalid audience: expected " ++ s ≠ m) (a b : JVal) :
    m ∉ audCheck a b := by
  rcases audCheck_eq a b with he | he <;> simp [he]
  exact fun hc => h _ hc.symm

/-- The expiry message is contributed exactly when `exp` is a number
strictly below the current time. -/
lemma mem_expCheck_expired_iff (v : JVal) (now : Int) :
    "Token has expired" ∈ expCheck v now ↔ ∃ k, v = .num k ∧ k < now := by
  cases v <;> simp [expCheck]

/-- The `nbf` rule never contributes the expiry message. -/
lemma expired_notMem_nbfCheck (v : JVal) (now : Int) :
    "Token has expired" ∉ nbfCheck v now := by
  cases v <;> simp [nbfCheck]

/-- The `iat` rule never contributes the expiry message. -/
lemma expired_notMem_iatCheck (v : JVal) (now : Int) :
    "Token has expired" ∉ iatCheck v now := by
  cases v <;> simp [iatCheck]

/-- The future-iat message is contributed exactly when `iat` is a number
strictly above the current time. -/
lemma mem_iatCheck_future_iff (v : JVal) (now : Int) :
    "Token issued in the future (iat claim)" ∈ iatCheck v now ↔
      ∃ k, v = .num k ∧ k > now := by
  cases v <;> simp [iatCheck]

/-- The `exp` rule never contributes the future-iat message. -/
lemma iatFuture_notMem_expCheck (v : JVal) (now : Int) :
    "Token issued in the future (iat claim)" ∉ expCheck v now := by
  cases v <;> simp [expCheck]

/-- The `nbf` rule never contributes the future-iat message. -/
lemma iatFuture_notMem_nbfCheck (v : JVal) (now : Int) :
    "Token issued in the future (iat claim)" ∉ nbfCheck v now := by
  cases v <;> simp [nbfCheck]

/-- The `exp` rule never contributes the iat-type message. -/
lemma iatNum_notMem_expCheck (v : JVal) (now : Int) :
    "iat claim must be a number" ∉ expCheck v now := by
  cases v <;> simp [expCheck]

/-- The `nbf` rule never contributes the iat-type message. -/
lemma iatNum_notMem_nbfCheck (v : JVal) (now : Int) :
    "iat claim must be a number" ∉ nbfCheck v now := by
  cases v <;> simp [nbfCheck]

/-- With no truthy `kid` and a non-empty key list, key resolution picks
the first key of the set. -/
lemma resolveKey_noKid_cons (header jwks k : JVal) (rest : List JVal)
    (hkid : truthy (getField header "kid") = false)
    (hkeys : getField jwks "keys" = .arr (k :: rest)) :
    resolveKey header jwks = .ok k := by
  unfold resolveKey
  simp only [hkid, Bool.false_eq_true, if_false, hkeys]
  simp [jsLengthPos, jsIndex0, truthy]

/-- With no truthy `kid` and an empty key list, key resolution fails. -/
lemma resolveKey_noKid_nil (header jwks : JVal)
    (hkid : truthy (getField header "kid") = false)
    (hkeys : getField jwks "keys" = .arr []) :
    resolveKey header jwks = .error "No kid in JWT header and no keys in JWKS" := by
  unfold resolveKey
  simp only [hkid, Bool.false_eq_true, if_false, hkeys]
  simp [jsLengthPos]

/-- A freshly stored cache binding is found with its storage time. -/
lemma cacheLookup_cacheSet (st : CacheState) (url : String) (jwks : JVal) (now : Int) :
    cacheLookup (cacheSet st url jwks now) url =
      some { jwks := jwks, timestamp := now } := by
  simp [cacheLookup, cacheSet, List.find?]

/-! ## Claim theorems -/

/-- Claim C1, counterexample. The claim says a header with no `kid`
against a key set with more than one key must yield an invalid outcome.
In the code, the token `hh.pp.ss` decodes to a header with no `kid`, the
key set holds two keys, and `verifyJWT` nevertheless returns a valid
outcome: the source falls back to the first key of the set. -/
theorem c1_keyless_multikey_counterexample :
    decodeJWT sampleEnv "hh.pp.ss" =
      .ok { header := sampleHeader, payload := samplePayload,
            signature := "ss", message := "hh.pp" } ∧
    getField sampleHeader "kid" = .undefined ∧
    getField sampleJwks "keys" = .arr [sampleKey "k1", sampleKey "k2"] ∧
    verifyJWT sampleEnv "hh.pp.ss" (.ok sampleJwks) {} 0 =
      (.valid sampleHeader samplePayload, true) :=
  ⟨rfl, rfl, rfl, rfl⟩

/-- Claim C1, amended. When the decoded header's `alg` is ES256 and the
header carries no (truthy) `kid`, `verifyJWT` does not treat a multi-key
set as invalid: it proceeds with the first key of the fetched key list
regardless of how many keys the list holds, and returns an invalid
outcome only when the key list is empty. -/
theorem c1_keyless_fallback_first_key (env : CryptoEnv) (idToken : String)
    (d : DecodedJWT) (jwks : JVal) (options : VerifyOptions) (now : Int)
    (hdec : decodeJWT env idToken = .ok d)
    (halg : jsEq (getField d.header "alg") (.str "ES256") = true)
    (hkid : truthy (getField d.header "kid") = false) :
    (∀ k rest, getField jwks "keys" = .arr (k :: rest) →
      verifyJWT env idToken (.ok jwks) options now =
        (verifyWithKey env d k options now, true)) ∧
    (getField jwks "keys" = .arr [] →
      verifyJWT env idToken (.ok jwks) options now =
        (.invalid "No kid in JWT header and no keys in JWKS", true)) := by
  constructor
  · intro k rest hkeys
    have hres := resolveKey_noKid_cons d.header jwks k rest hkid hkeys
    unfold verifyJWT
    rw [hdec]
    simp [halg, hres]
  · intro hkeys
    have hres := resolveKey_noKid_nil d.header jwks hkid hkeys
    unfold verifyJWT
    rw [hdec]
    simp [halg, hres]

/-- Claim C1, witness for the amended theorem at the concrete fixture:
the key-less token is verified with the first of the two keys. -/
theorem c1_keyless_fallback_first_key_witness :
    verifyJWT sampleEnv "hh.pp.ss" (.ok sampleJwks) {} 0 =
      (verifyWithKey sampleEnv
        { header := sampleHeader, payload := samplePayload,
          signature := "ss", message := "hh.pp" }
        (sampleKey "k1") {} 0, true) :=
  (c1_keyless_fallback_first_key sampleEnv "hh.pp.ss" _ sampleJwks {} 0
    rfl rfl rfl).1 (sampleKey "k1") [sampleKey "k2"] rfl

/-- Claim C2, confirmed. `verifySignature` is a total Boolean function —
the try/catch never lets an exception escape — and it yields `true`
exactly when the digest succeeded, the signature decoded to exactly 64
bytes, and the elliptic-curve check affirmed the split `r`/`s` halves
without throwing; every failure (thrown decode, wrong length, throwing
or negative ECDSA check) yields `false`. -/
theorem c2_verifySignature_fails_closed (env : CryptoEnv)
    (message signature : String) (publicKey : ECKey) :
    verifySignature env message signature publicKey = true ↔
      ∃ hash sigBytes, env.sha256hex message = some hash ∧
        env.b64decode signature = some sigBytes ∧ sigBytes.length = 64 ∧
        env.ecVerify publicKey hash (hexOfBytes (sigBytes.take 32))
          (hexOfBytes (sigBytes.drop 32)) = some true := by
  unfold verifySignature
  cases h1 : env.sha256hex message with
  | none => simp
  | some hash =>
    cases h2 : env.b64decode signature with
    | none => simp
    | some bs =>
      simp only [Option.some.injEq]
      split
      case isTrue hlen =>
        constructor
        · intro h
          exact absurd h (by simp)
        · rintro ⟨h', b', hh, hb, hl, _⟩
          exact absurd (hb ▸ hl : bs.length = 64) hlen
      case isFalse hlen =>
        cases h3 : env.ecVerify publicKey hash (hexOfBytes (bs.take 32))
            (hexOfBytes (bs.drop 32)) with
        | none => simp [h3]
        | some b =>
          constructor
          · rintro rfl
            exact ⟨hash, bs, rfl, rfl, by omega, h3⟩
          · rintro ⟨h', b', hh, hb, hl, hv⟩
            cases hh
            cases hb
            rw [h3] at hv
            cases hv
            rfl

/-- Claim C2, witness: a concrete environment and inputs on which the
signature verifies positively through the success chain. -/
theorem c2_verifySignature_fails_closed_witness :
    verifySignature sampleEnv "msg" "ss" ("01", "02") = true :=
  (c2_verifySignature_fails_closed sampleEnv "msg" "ss" ("01", "02")).mpr
    ⟨"digest", List.replicate 64 0, rfl, rfl, by simp, rfl⟩

/-- Claim C3, confirmed. For every input, `verifyJWT` evaluates to a
tagged outcome: either invalid with a reason string or valid with the
decoded header and payload. The model is a total function — the source
wraps its whole body in try/catch, so no exception crosses the boundary —
and the outcome type has no partial-success constructor. -/
theorem c3_verifyJWT_tagged_outcome (env : CryptoEnv) (idToken : String)
    (jwksResult : Except String JVal) (options : VerifyOptions) (now : Int) :
    (∃ r, (verifyJWT env idToken jwksResult options now).1 = .invalid r) ∨
    (∃ h p, (verifyJWT env idToken jwksResult options now).1 = .valid h p) := by
  cases h : (verifyJWT env idToken jwksResult options now).1 with
  | valid hd pl => exact .inr ⟨hd, pl, rfl⟩
  | invalid r => exact .inl ⟨r, rfl⟩

/-- Claim C4, confirmed. When the decoded header's `alg` is not ES256,
`verifyJWT` returns the unsupported-algorithm invalid outcome with the
fetch flag `false`: the result is the same for every possible key-set
fetch result, and the fetch is never attempted. -/
theorem c4_algorithm_gate_short_circuits (env : CryptoEnv) (idToken : String)
    (d : DecodedJWT) (jwksResult : Except String JVal) (options : VerifyOptions)
    (now : Int)
    (hdec : decodeJWT env idToken = .ok d)
    (halg : jsEq (getField d.header "alg") (.str "ES256") = false) :
    verifyJWT env idToken jwksResult options now =
      (.invalid ("Unsupported algorithm: " ++ jsDisplay (getField d.header "alg") ++
        ". Only ES256 is supported."), false) := by
  unfold verifyJWT
  rw [hdec]
  simp [halg]

/-- Claim C4, witness: a concrete HS256 token is rejected before any
fetch, whatever the key-set result would have been. -/
theorem c4_algorithm_gate_short_circuits_witness :
    verifyJWT sampleEnv "aa.pp.ss" (.ok sampleJwks) {} 0 =
      (.invalid "Unsupported algorithm: HS256. Only ES256 is supported.", false) :=
  c4_algorithm_gate_short_circuits sampleEnv "aa.pp.ss"
    { header := sampleHeaderHS, payload := samplePayload,
      signature := "ss", message := "aa.pp" }
    (.ok sampleJwks) {} 0 rfl rfl

/-- Claim C5, confirmed. `validateClaims` reports the missing-exp error
whenever the payload carries no `exp` claim, and reports the expiry
error exactly when `exp` is a number strictly below the current time —
a token with `exp` equal to `now` is not expired, one with `exp` one
below `now` is. -/
theorem c5_exp_required_and_strict_expiry (payload : JVal)
    (options : VerifyOptions) (now : Int) :
    (getField payload "exp" = .undefined →
      "exp claim is required but missing" ∈ (validateClaims payload options now).errors) ∧
    ("Token has expired" ∈ (validateClaims payload options now).errors ↔
      ∃ k, getField payload "exp" = .num k ∧ k < now) := by
  constructor
  · intro h
    simp [validateClaims, expCheck, h]
  · simp only [validateClaims, List.mem_append]
    simp [mem_expCheck_expired_iff, expired_notMem_nbfCheck, expired_notMem_iatCheck,
      notMem_issCheck_of_ne _ issMsg_ne_expired, notMem_audCheck_of_ne _ audMsg_ne_expired]

/-- Claim C5, witness: a payload without `exp` gets the missing error;
`exp = 100` at time 200 gets the expiry error. -/
theorem c5_exp_required_and_strict_expiry_witness :
    "exp claim is required but missing" ∈ (validateClaims (.obj []) {} 0).errors ∧
    "Token has expired" ∈ (validateClaims samplePayload {} 200).errors :=
  ⟨(c5_exp_required_and_strict_expiry (.obj []) {} 0).1 rfl,
   (c5_exp_required_and_strict_expiry samplePayload {} 200).2.mpr
     ⟨100, rfl, by norm_num⟩⟩

/-- Claim C6, counterexample. The claim says `decodeJWT` fails for every
token that does not split into exactly 3 non-empty segments. The token
`hh.pp.` splits into 3 segments with an empty third (signature) segment,
yet `decodeJWT` succeeds: the source checks only the segment count, not
non-emptiness, and never decodes the signature segment. -/
theorem c6_empty_signature_segment_counterexample :
    jsSplitDot "hh.pp." = ["hh", "pp", ""] ∧
    decodeJWT sampleEnv "hh.pp." =
      .ok { header := sampleHeader, payload := samplePayload,
            signature := "", message := "hh.pp" } :=
  ⟨rfl, rfl⟩

/-- Claim C6, amended. `decodeJWT` succeeds exactly when the token splits
into exactly 3 segments (empty segments allowed at the split; an empty
header or payload segment still fails at decode-parse) and the first two
segments base64url-decode-then-JSON-parse; on success the signing input
`message` is the first two original encoded segments rejoined with `.` —
taken verbatim from the token, never re-encoded — the header and payload
are the parsed segments, and the signature is the raw third segment. -/
theorem c6_decode_contract (env : CryptoEnv) (token : String) :
    ((∃ d, decodeJWT env token = .ok d) ↔
      ∃ p0 p1 p2, jsSplitDot token = [p0, p1, p2] ∧
        (env.b64decode p0 >>= env.jsonParse).isSome ∧
        (env.b64decode p1 >>= env.jsonParse).isSome) ∧
    (∀ d, decodeJWT env token = .ok d →
      ∃ p0 p1 p2, jsSplitDot token = [p0, p1, p2] ∧
        d.message = p0 ++ "." ++ p1 ∧
        (env.b64decode p0 >>= env.jsonParse) = some d.header ∧
        (env.b64decode p1 >>= env.jsonParse) = some d.payload ∧
        d.signature = p2) := by
  have key : ∀ d, decodeJWT env token = .ok d →
      ∃ p0 p1 p2, jsSplitDot token = [p0, p1, p2] ∧
        d.message = p0 ++ "." ++ p1 ∧
        (env.b64decode p0 >>= env.jsonParse) = some d.header ∧
        (env.b64decode p1 >>= env.jsonParse) = some d.payload ∧
        d.signature = p2 := by
    intro d hd
    unfold decodeJWT at hd
    generalize hsplit : jsSplitDot token = parts at hd
    rcases parts with _ | ⟨p0, _ | ⟨p1, _ | ⟨p2, _ | ⟨q, qs⟩⟩⟩⟩
    · simp at hd
    · simp at hd
    · simp at hd
    · have hd2 : (match env.b64decode p0 >>= env.jsonParse,
            env.b64decode p1 >>= env.jsonParse with
          | some header, some payload =>
            Except.ok (DecodedJWT.mk header payload p2 (p0 ++ "." ++ p1))
          | _, _ =>
            Except.error "Failed to decode JWT: malformed segment") = Except.ok d := hd
      rcases h0 : env.b64decode p0 >>= env.jsonParse with _ | hv
      · rw [h0] at hd2
        simp at hd2
      · rcases h1 : env.b64decode p1 >>= env.jsonParse with _ | pv
        · rw [h0, h1] at hd2
          simp at hd2
        · rw [h0, h1] at hd2
          simp only [Except.ok.injEq] at hd2
          cases hd2
          exact ⟨p0, p1, p2, rfl, rfl, h0, h1, rfl⟩
    · simp at hd
  constructor
  · constructor
    · rintro ⟨d, hd⟩
      obtain ⟨p0, p1, p2, hs, _, h0, h1, _⟩ := key d hd
      exact ⟨p0, p1, p2, hs, by rw [h0]; rfl, by rw [h1]; rfl⟩
    · rintro ⟨p0, p1, p2, hsplit, h0, h1⟩
      rcases Option.isSome_iff_exists.mp h0 with ⟨hv, hh⟩
      rcases Option.isSome_iff_exists.mp h1 with ⟨pv, hp⟩
      refine ⟨⟨hv, pv, p2, p0 ++ "." ++ p1⟩, ?_⟩
      unfold decodeJWT
      rw [hsplit]
      simp [hh, hp]
  · exact key

/-- Claim C6, witness: the contract's success direction at a concrete
well-formed token. -/
theorem c6_decode_contract_witness :
    ∃ d, decodeJWT sampleEnv "hh.pp.ss" = .ok d :=
  (c6_decode_contract sampleEnv "hh.pp.ss").1.mpr ⟨"hh", "pp", "ss", rfl, rfl, rfl⟩

/-- Claim C7, counterexample. The claim says `validateClaims` reports an
error whenever `iat` is greater than the current time. In the
`src/src/sdk/auth.js` revision the `iat` block is commented out: the
payload `{"exp": 10, "iat": 100}` at time 0 has a future `iat`, yet
validation passes with no error at all. -/
theorem c7_authjs_iat_disabled_counterexample :
    getField c7Payload "iat" = .num 100 ∧ ((100 : Int) > 0) ∧
    validateClaimsAuthJs c7Payload {} 0 = { valid := true, errors := [] } :=
  ⟨rfl, by norm_num, rfl⟩

/-- Claim C7, amended. The `iat` rule is enforced only in the
`src/unnamed/part_002` revision of `validateClaims`: there the future-iat
error is reported exactly when `iat` is a number greater than the current
time, and an absent `iat` is never an error; in the `src/src/sdk/auth.js`
revision the check is commented out, so no `iat`-related error is ever
reported. -/
theorem c7_iat_rule_by_revision (payload : JVal) (options : VerifyOptions) (now : Int) :
    ("Token issued in the future (iat claim)" ∈ (validateClaims payload options now).errors ↔
      ∃ k, getField payload "iat" = .num k ∧ k > now) ∧
    (getField payload "iat" = .undefined →
      "iat claim must be a number" ∉ (validateClaims payload options now).errors) ∧
    ("Token issued in the future (iat claim)" ∉ (validateClaimsAuthJs payload options now).errors) ∧
    ("iat claim must be a number" ∉ (validateClaimsAuthJs payload options now).errors) := by
  refine ⟨?_, ?_, ?_, ?_⟩
  · simp only [validateClaims, List.mem_append]
    simp [mem_iatCheck_future_iff, iatFuture_notMem_expCheck, iatFuture_notMem_nbfCheck,
      notMem_issCheck_of_ne _ issMsg_ne_iatFuture, notMem_audCheck_of_ne _ audMsg_ne_iatFuture]
  · intro h
    simp only [validateClaims, List.mem_append]
    simp [h, iatCheck, iatNum_notMem_expCheck, iatNum_notMem_nbfCheck,
      notMem_issCheck_of_ne _ issMsg_ne_iatNum, notMem_audCheck_of_ne _ audMsg_ne_iatNum]
  · simp only [validateClaimsAuthJs, List.mem_append]
    simp [iatFuture_notMem_expCheck, iatFuture_notMem_nbfCheck,
      notMem_issCheck_of_ne _ issMsg_ne_iatFuture, notMem_audCheck_of_ne _ audMsg_ne_iatFuture]
  · simp only [validateClaimsAuthJs, List.mem_append]
    simp [iatNum_notMem_expCheck, iatNum_notMem_nbfCheck,
      notMem_issCheck_of_ne _ issMsg_ne_iatNum, notMem_audCheck_of_ne _ audMsg_ne_iatNum]

/-- Claim C7, witness: in the part_002 revision a future `iat` is
reported. -/
theorem c7_iat_rule_by_revision_witness :
    "Token issued in the future (iat claim)" ∈ (validateClaims c7Payload {} 0).errors :=
  (c7_iat_rule_by_revision c7Payload {} 0).1.mpr ⟨100, rfl, by norm_num⟩

/-- Claim C8, confirmed. The error list of `validateClaims` is the
concatenation of the five rules' independent contributions — each rule a
function of its own claim value only, so no violation short-circuits
another — and the result is valid exactly when that list is empty. -/
theorem c8_collects_all_violations (payload : JVal) (options : VerifyOptions) (now : Int) :
    (validateClaims payload options now).errors =
      expCheck (getField payload "exp") now ++
      nbfCheck (getField payload "nbf") now ++
      iatCheck (getField payload "iat") now ++
      issCheck (getField payload "iss") options.expectedIssuer ++
      audCheck (getField payload "aud") options.expectedAudience ∧
    ((validateClaims payload options now).valid = true ↔
      (validateClaims payload options now).errors = []) := by
  refine ⟨rfl, ?_⟩
  simp [validateClaims, List.isEmpty_iff]

/-- Claim C8, witness: a clean payload validates because its collected
error list is empty. -/
theorem c8_collects_all_violations_witness :
    (validateClaims samplePayload {} 0).valid = true :=
  (c8_collects_all_violations samplePayload {} 0).2.mpr rfl

/-- Claim C9, confirmed. After a successful fetch stores a key set at
time `t1`, a call for the same URL within the TTL window returns the
cached set with no network access and leaves the cache unchanged; a call
after the TTL has elapsed treats the entry as absent, performs a fresh
fetch, and unconditionally replaces the old entry with the new set. -/
theorem c9_cache_ttl_behavior (st0 : CacheState) (url : String) (t1 t2 : Int)
    (K K2 : JVal)
    (hK : isValidJWKSFormat K = true)
    (hmiss : cacheLookup st0 url = none) :
    fetchJWKS st0 url t1 (some K) = (.ok K, cacheSet st0 url K t1, true) ∧
    (t2 - t1 ≤ CACHE_TTL → ∀ net2,
      fetchJWKS (cacheSet st0 url K t1) url t2 net2 =
        (.ok K, cacheSet st0 url K t1, false)) ∧
    (t2 - t1 > CACHE_TTL → isValidJWKSFormat K2 = true →
      ∃ st2, fetchJWKS (cacheSet st0 url K t1) url t2 (some K2) = (.ok K2, st2, true) ∧
        cacheLookup st2 url = some { jwks := K2, timestamp := t2 }) := by
  refine ⟨?_, ?_, ?_⟩
  · unfold fetchJWKS cacheGet
    rw [hmiss]
    simp [hK]
  · intro hfresh net2
    unfold fetchJWKS cacheGet
    rw [cacheLookup_cacheSet]
    simp only []
    rw [if_neg (by simp; omega)]
  · intro hstale hK2
    unfold fetchJWKS cacheGet
    rw [cacheLookup_cacheSet]
    simp only []
    rw [if_pos (by simpa using hstale)]
    refine ⟨cacheSet (cacheDelete (cacheSet st0 url K t1) url) url K2 t2, ?_, ?_⟩
    · simp [hK2]
    · exact cacheLookup_cacheSet _ _ _ _

/-- Claim C9, witness: a concrete fetch at time 0 followed by a call at
time 1000 (inside the one-hour TTL) that hits the cache, does not touch
the network, and ignores the different network answer. -/
theorem c9_cache_ttl_behavior_witness :
    fetchJWKS [] "u" 0 (some sampleJwks) =
      (.ok sampleJwks, cacheSet [] "u" sampleJwks 0, true) ∧
    fetchJWKS (cacheSet [] "u" sampleJwks 0) "u" 1000 (some sampleJwksB) =
      (.ok sampleJwks, cacheSet [] "u" sampleJwks 0, false) := by
  refine ⟨(c9_cache_ttl_behavior [] "u" 0 1000 sampleJwks sampleJwksB rfl rfl).1, ?_⟩
  exact (c9_cache_ttl_behavior [] "u" 0 1000 sampleJwks sampleJwksB rfl rfl).2.1
    (by norm_num [CACHE_TTL]) (some sampleJwksB)

/-- Claim C10, confirmed. The compatibility stub `webcrypto.subtle.verify`
returns `true` for every combination of algorithm, key, signature and
data: it performs no cryptographic check, so any caller relying on it
would accept every token. -/
theorem c10_webcrypto_verify_always_true (algorithm key signature data : JVal) :
    webcryptoSubtleVerify algorithm key signature data = true :=
  rfl

end OcidConnect
